import Mathlib

/-!
Verification of the 2048 game model (`Model` in `a3.py`).

The repository's `a3.py` imports helper functions from `a3_support`
(`stack_left`, `combine_left`, `reverse`, `transpose`, `generate_tile`
and the constants `UP`, `LEFT`, `DOWN`, `RIGHT`, `NUM_ROWS`, `NUM_COLS`),
a module that is not part of the repository's sources.  Those helpers are
modelled here from the specification's merge-algorithm description; every
such definition is marked `Modelled from the spec`.  Everything in the
`Model` class itself is translated directly from `a3.py`.
-/

namespace A3

/-- A grid cell: `none` is an empty place, `some v` a tile of value `v`. -/
abbrev Cell := Option Nat

abbrev Row := List Cell

abbrev Grid := List Row

/-- Modelled from the spec: the key constant for an upward move (missing
`a3_support`); `a3.py` binds the keys w, a, s, d. -/
def UP : String := "w"

/-- Modelled from the spec: the key constant for a leftward move. -/
def LEFT : String := "a"

/-- Modelled from the spec: the key constant for a downward move. -/
def DOWN : String := "s"

/-- Modelled from the spec: the key constant for a rightward move. -/
def RIGHT : String := "d"

/-- Modelled from the spec: the grid has 4 rows (missing `a3_support`). -/
def NUM_ROWS : Nat := 4

/-- Modelled from the spec: the grid has 4 columns (missing `a3_support`). -/
def NUM_COLS : Nat := 4

/-- Modelled from the spec: stage "stack left" of the merge algorithm from
the missing `a3_support.stack_left`, per row: remove all empty cells,
preserving the relative order of non-empty cells, then pad the remainder of
the row on the right with empty cells. -/
def stackRow (r : Row) : Row :=
  (r.filterMap id).map some ++ List.replicate (r.length - (r.filterMap id).length) none

/-- Modelled from the spec: stage "combine left" of the merge algorithm from
the missing `a3_support.combine_left`, per row: scan left-to-right; whenever
two adjacent non-empty cells hold equal values, replace the left cell with
double that value, clear the right cell, and add the doubled value to the
score delta; single-pass and non-cascading. -/
def combineAux : Cell → Row → Row × Nat
  | c, [] => ([c], 0)
  | some x, some y :: rest =>
    if x = y then
      match rest with
      | [] => ([some (x + x), none], x + x)
      | c :: rest2 =>
        let p := combineAux c rest2
        (some (x + x) :: none :: p.1, (x + x) + p.2)
    else
      let p := combineAux (some y) rest
      (some x :: p.1, p.2)
  | c, c2 :: rest =>
    let p := combineAux c2 rest
    (c :: p.1, p.2)

/-- The scan of a whole row, entry point of `combineAux`. -/
def combineRow : Row → Row × Nat
  | [] => ([], 0)
  | c :: rest => combineAux c rest

/-- Modelled from the spec: `a3_support.stack_left` applied to the whole
matrix, row by row. -/
def stack_left (g : Grid) : Grid := g.map stackRow

/-- Modelled from the spec: `a3_support.combine_left` applied to the whole
matrix, returning the new matrix and the total score delta over all rows. -/
def combine_left (g : Grid) : Grid × Nat :=
  (g.map (fun r => (combineRow r).1), (g.map (fun r => (combineRow r).2)).sum)

/-- Modelled from the spec: `a3_support.reverse` reverses each row of the
matrix (used to conjugate a rightward move to a leftward one). -/
def reverse (g : Grid) : Grid := g.map List.reverse

/-- The cell of `g` at row `r`, column `c` (`none` when out of range). -/
def cellAt (g : Grid) (r c : Nat) : Cell := (g.getD r []).getD c none

/-- Modelled from the spec: `a3_support.transpose` swaps rows and columns of
the 4x4 matrix. -/
def transpose (g : Grid) : Grid :=
  (List.range NUM_COLS).map (fun c => (List.range NUM_ROWS).map (fun r => cellAt g r c))

/-- The state of `Model` in `a3.py`: `tiles` is `tiles_matrix`, `score` is
`_score`, `undos` is `_undos` (undos remaining), `history` is
`_previous_info`, the list of (grid, score) snapshots, oldest first. -/
structure ModelState where
  tiles : Grid
  score : Nat
  undos : Nat
  history : List (Grid × Nat)
deriving DecidableEq, Repr

/-- `Model.move_left`: stack, combine, stack each row leftward and add the
points gained to the total score. -/
def move_left (s : ModelState) : ModelState :=
  let g1 := stack_left s.tiles
  let p := combine_left g1
  let g2 := stack_left p.1
  { s with tiles := g2, score := s.score + p.2 }

/-- `Model.move_right`: reverse the rows, move left, reverse back. -/
def move_right (s : ModelState) : ModelState :=
  let s1 := { s with tiles := reverse s.tiles }
  let s2 := move_left s1
  { s2 with tiles := reverse s2.tiles }

/-- `Model.move_up`: transpose, move left, transpose back. -/
def move_up (s : ModelState) : ModelState :=
  let s1 := { s with tiles := transpose s.tiles }
  let s2 := move_left s1
  { s2 with tiles := transpose s2.tiles }

/-- `Model.move_down`: transpose, move right, transpose back. -/
def move_down (s : ModelState) : ModelState :=
  let s1 := { s with tiles := transpose s.tiles }
  let s2 := move_right s1
  { s2 with tiles := transpose s2.tiles }

/-- `Model.move_detected`: dispatch on the key string; any other string does
nothing. -/
def move_detected (m : String) (s : ModelState) : ModelState :=
  if m = UP then move_up s
  else if m = LEFT then move_left s
  else if m = DOWN then move_down s
  else if m = RIGHT then move_right s
  else s

/-- `Model.move_check`: only when `_previous_info` is non-empty, snapshot
(tiles, score), apply the move, and if the tiles changed restore the
snapshot and return `True`, else return `False`.  When `_previous_info` is
empty the Python method falls through and returns `None`; the `Option Bool`
result records that (`none` = Python `None`). -/
def move_check (m : String) (s : ModelState) : Option Bool × ModelState :=
  if 0 < s.history.length then
    let lastTiles := s.tiles
    let lastScore := s.score
    let s1 := move_detected m s
    if s1.tiles = lastTiles then (some false, s1)
    else (some true, { s1 with tiles := lastTiles, score := lastScore })
  else (none, s)

/-- `Model.attempt_move`: pop the oldest snapshot when the history is longer
than the undos remaining, push the pre-move (tiles, score) snapshot, then
check the move; on a change re-apply it and return `True`; otherwise undo
the history manipulation (re-insert the popped snapshot at the front, pop
the appended one from the back) and return `False`. -/
def attempt_move (m : String) (s : ModelState) : Bool × ModelState :=
  let trimmed : Option (Grid × Nat) × List (Grid × Nat) :=
    if s.undos < s.history.length then (s.history.head?, s.history.tail)
    else (none, s.history)
  let s2 := { s with history := trimmed.2 ++ [(s.tiles, s.score)] }
  let c := move_check m s2
  if c.1 = some true then (true, move_detected m c.2)
  else
    let h3 :=
      match trimmed.1 with
      | some r => r :: c.2.history
      | none => c.2.history
    (false, { c.2 with history := h3.dropLast })

/-- `Model.has_won`: a 2048 tile exists on the grid. -/
def has_won (s : ModelState) : Bool :=
  s.tiles.any (fun row => row.contains (some 2048))

/-- The probe `any([self.move_check(x) for x in self._valid_move])` inside
`Model.has_lost`: the four checks run in order w, a, s, d, each threading the
model state; the result is whether any returned `True` (Python `None` is
falsy). -/
def probe_all (s : ModelState) : Bool × ModelState :=
  let c1 := move_check UP s
  let c2 := move_check LEFT c1.2
  let c3 := move_check DOWN c2.2
  let c4 := move_check RIGHT c3.2
  (decide (c1.1 = some true) || decide (c2.1 = some true) ||
    decide (c3.1 = some true) || decide (c4.1 = some true), c4.2)

/-- The row loop of `Model.has_lost`: for each row of the matrix captured at
entry, return `False` as soon as a row has an empty place (the probes are
short-circuited away then) or some probe reports a change; if no row
triggers, return `True`. -/
def has_lost_aux : List Row → ModelState → Bool × ModelState
  | [], s => (true, s)
  | row :: rest, s =>
    if none ∈ row then (false, s)
    else
      let p := probe_all s
      if p.1 then (false, p.2) else has_lost_aux rest p.2

/-- `Model.has_lost`, together with the state it leaves behind. -/
def has_lost (s : ModelState) : Bool × ModelState := has_lost_aux s.tiles s

/-- `Model.use_undo`: when undos remain and the history is non-empty,
consume one undo, pop the most recent snapshot and restore tiles and score
from it; otherwise do nothing. -/
def use_undo (s : ModelState) : ModelState :=
  if 0 < s.undos ∧ 0 < s.history.length then
    match s.history.getLast? with
    | some a => { tiles := a.1, score := a.2, undos := s.undos - 1,
                  history := s.history.dropLast }
    | none => s
  else s

/-- Modelled from the spec: the positions of the empty cells of the grid, in
row-major order (the scan inside the missing `a3_support.generate_tile`). -/
def emptyCells (g : Grid) : List (Nat × Nat) :=
  ((List.range NUM_ROWS).map (fun r =>
    (List.range NUM_COLS).filterMap (fun c =>
      if cellAt g r c = none then some (r, c) else none))).flatten

/-- Write value `v` into the cell of `g` at row `r`, column `c`. -/
def setCell (g : Grid) (r c : Nat) (v : Cell) : Grid :=
  g.set r ((g.getD r []).set c v)

/-- `Model.add_tile`: the missing `a3_support.generate_tile` is modelled
from the spec by two oracles for its random choices: `i` indexes the chosen
empty cell in row-major order and `v` is the chosen value (2 with
probability 0.9, 4 with probability 0.1); with no empty cell it is a no-op. -/
def add_tile (s : ModelState) (i v : Nat) : ModelState :=
  match (emptyCells s.tiles).get? i with
  | some rc => { s with tiles := setCell s.tiles rc.1 rc.2 (some v) }
  | none => s

/-- The all-empty 4x4 grid. -/
def emptyGrid : Grid := List.replicate NUM_ROWS (List.replicate NUM_COLS none)

/-- `Model.new_game`: reset the tiles to all-empty and add two random tiles.
It touches no other field of the model.  The oracle arguments feed the two
`add_tile` calls. -/
def new_game (s : ModelState) (i1 v1 i2 v2 : Nat) : ModelState :=
  add_tile (add_tile { s with tiles := emptyGrid } i1 v1) i2 v2

/-- `Model.loading`: install all four fields verbatim from the snapshot. -/
def loading (_s : ModelState) (g : Grid) (sc u : Nat)
    (h : List (Grid × Nat)) : ModelState :=
  { tiles := g, score := sc, undos := u, history := h }

/-- `Model.__init__`: `new_game` on a blank object, then score 0, 3 undos,
empty history. -/
def initState (i1 v1 i2 v2 : Nat) : ModelState :=
  { tiles := (new_game { tiles := [], score := 0, undos := 0, history := [] }
      i1 v1 i2 v2).tiles,
    score := 0, undos := 3, history := [] }

/-- The states reachable through the engine's own operations (a fresh
instance, moves, undos, added tiles and new games) — everything except
`loading`, which installs a snapshot verbatim. -/
inductive Reachable : ModelState → Prop where
  | init (i1 v1 i2 v2 : Nat) : Reachable (initState i1 v1 i2 v2)
  | step_move (m : String) {s : ModelState} :
      Reachable s → Reachable (attempt_move m s).2
  | step_undo {s : ModelState} : Reachable s → Reachable (use_undo s)
  | step_tile (i v : Nat) {s : ModelState} :
      Reachable s → Reachable (add_tile s i v)
  | step_new (i1 v1 i2 v2 : Nat) {s : ModelState} :
      Reachable s → Reachable (new_game s i1 v1 i2 v2)

/-- The number of non-empty cells of a row. -/
def countSome (r : Row) : Nat := (r.filterMap id).length

/-- The number of non-empty cells of a grid. -/
def countGrid (g : Grid) : Nat := (g.map countSome).sum

/-- The one-row composite stack-combine-stack of a leftward move, with its
score delta. -/
def moveRowLeft (r : Row) : Row × Nat :=
  (stackRow (combineRow (stackRow r)).1, (combineRow (stackRow r)).2)

lemma moveRowLeft_def (r : Row) :
    moveRowLeft r = (stackRow (combineRow (stackRow r)).1, (combineRow (stackRow r)).2) := rfl

/-- Grid-level leftward move. -/
def moveLeftTiles (g : Grid) : Grid := stack_left (combine_left (stack_left g)).1

/-- Grid-level leftward score delta. -/
def deltaLeft (g : Grid) : Nat := (combine_left (stack_left g)).2

/-- Grid-level rightward move: conjugation of the leftward move by row
reversal. -/
def moveRightTiles (g : Grid) : Grid := reverse (moveLeftTiles (reverse g))

/-- Grid-level rightward score delta. -/
def deltaRight (g : Grid) : Nat := deltaLeft (reverse g)

/-- Grid-level upward move: conjugation of the leftward move by transpose. -/
def moveUpTiles (g : Grid) : Grid := transpose (moveLeftTiles (transpose g))

/-- Grid-level upward score delta. -/
def deltaUp (g : Grid) : Nat := deltaLeft (transpose g)

/-- Grid-level downward move: conjugation of the rightward move by
transpose. -/
def moveDownTiles (g : Grid) : Grid := transpose (moveRightTiles (transpose g))

/-- Grid-level downward score delta. -/
def deltaDown (g : Grid) : Nat := deltaRight (transpose g)

/-- Grid and score delta of the move selected by the key string (identity
and zero for an unrecognized key, as in `move_detected`). -/
def moveG (m : String) (g : Grid) : Grid × Nat :=
  if m = UP then (moveUpTiles g, deltaUp g)
  else if m = LEFT then (moveLeftTiles g, deltaLeft g)
  else if m = DOWN then (moveDownTiles g, deltaDown g)
  else if m = RIGHT then (moveRightTiles g, deltaRight g)
  else (g, 0)

lemma filterMap_id_map_some (xs : List Nat) :
    (xs.map (some : Nat → Cell)).filterMap id = xs := by
  induction xs with
  | nil => rfl
  | cons a t ih => simp [List.filterMap_cons, ih]

lemma filterMap_id_replicate_none (k : Nat) :
    ((List.replicate k (none : Cell)).filterMap id) = [] := by
  induction k with
  | zero => rfl
  | succ n ih => simp [List.replicate_succ, List.filterMap_cons, ih]

lemma countSome_cons_some (x : Nat) (l : Row) :
    countSome (some x :: l) = countSome l + 1 := by
  simp [countSome, List.filterMap_cons]

lemma countSome_cons_none (l : Row) :
    countSome (none :: l) = countSome l := by
  simp [countSome, List.filterMap_cons]

lemma stackRow_countSome (r : Row) : countSome (stackRow r) = countSome r := by
  simp [stackRow, countSome, List.filterMap_append, filterMap_id_map_some,
    filterMap_id_replicate_none]

lemma stackRow_length (r : Row) : (stackRow r).length = r.length := by
  have h : (r.filterMap id).length ≤ r.length := List.length_filterMap_le id r
  simp [stackRow]
  omega

lemma combineAux_nil (c : Cell) : combineAux c [] = ([c], 0) := by
  cases c <;> rfl

lemma combineAux_pair (y : Nat) :
    combineAux (some y) [some y] = ([some (y + y), none], y + y) := by
  simp [combineAux]

lemma combineAux_merge (y : Nat) (c : Cell) (rest2 : Row) :
    combineAux (some y) (some y :: c :: rest2) =
      (some (y + y) :: none :: (combineAux c rest2).1,
        (y + y) + (combineAux c rest2).2) := by
  simp [combineAux]

lemma combineAux_nomerge (x y : Nat) (rest : Row) (hxy : ¬x = y) :
    combineAux (some x) (some y :: rest) =
      (some x :: (combineAux (some y) rest).1, (combineAux (some y) rest).2) := by
  cases rest with
  | nil => rw [combineAux.eq_2, if_neg hxy]
  | cons c rest2 => rw [combineAux.eq_3, if_neg hxy]

lemma combineAux_skip (c c2 : Cell) (rest : Row)
    (h : ∀ x y : Nat, c = some x → c2 = some y → False) :
    combineAux c (c2 :: rest) =
      (c :: (combineAux c2 rest).1, (combineAux c2 rest).2) := by
  cases c with
  | none => rfl
  | some x =>
    cases c2 with
    | none => rfl
    | some y => exact ((h x y rfl rfl)).elim

lemma combineAux_length (c : Cell) (l : Row) :
    (combineAux c l).1.length = l.length + 1 := by
  induction c, l using combineAux.induct with
  | case1 c => simp [combineAux_nil]
  | case2 y => simp [combineAux_pair]
  | case3 y c rest2 ih => simp [combineAux_merge, ih]
  | case4 x y rest hxy ih => simp [combineAux_nomerge _ _ _ hxy, ih]
  | case5 c c2 rest h ih => simp [combineAux_skip _ _ _ h, ih]

lemma combineAux_countSome_le (c : Cell) (l : Row) :
    countSome (combineAux c l).1 ≤ countSome (c :: l) := by
  induction c, l using combineAux.induct with
  | case1 c => rw [combineAux_nil]
  | case2 y =>
    rw [combineAux_pair]
    simp only [countSome_cons_some, countSome_cons_none]
    omega
  | case3 y c rest2 ih =>
    rw [combineAux_merge]
    simp only [countSome_cons_some, countSome_cons_none] at ih ⊢
    omega
  | case4 x y rest hxy ih =>
    rw [combineAux_nomerge _ _ _ hxy]
    simp only [countSome_cons_some] at ih ⊢
    omega
  | case5 c c2 rest h ih =>
    rw [combineAux_skip _ _ _ h]
    cases c with
    | none => simp only [countSome_cons_none] at ih ⊢; omega
    | some x => simp only [countSome_cons_some] at ih ⊢; omega

lemma combineAux_countSome_lt (c : Cell) (l : Row) (h : 0 < (combineAux c l).2) :
    countSome (combineAux c l).1 < countSome (c :: l) := by
  induction c, l using combineAux.induct with
  | case1 c => rw [combineAux_nil] at h; simp at h
  | case2 y =>
    rw [combineAux_pair]
    simp only [countSome_cons_some, countSome_cons_none]
    omega
  | case3 y c rest2 ih =>
    have hle := combineAux_countSome_le c rest2
    rw [combineAux_merge]
    simp only [countSome_cons_some, countSome_cons_none] at hle ⊢
    omega
  | case4 x y rest hxy ih =>
    rw [combineAux_nomerge _ _ _ hxy] at h ⊢
    have hlt := ih h
    simp only [countSome_cons_some] at hlt ⊢
    omega
  | case5 c c2 rest heq ih =>
    rw [combineAux_skip _ _ _ heq] at h ⊢
    have hlt := ih h
    cases c with
    | none => simp only [countSome_cons_none] at hlt ⊢; omega
    | some x => simp only [countSome_cons_some] at hlt ⊢; omega

lemma combineRow_length (r : Row) : (combineRow r).1.length = r.length := by
  cases r with
  | nil => rfl
  | cons c rest => exact combineAux_length c rest

lemma combineRow_countSome_le (r : Row) :
    countSome (combineRow r).1 ≤ countSome r := by
  cases r with
  | nil => exact Nat.le.refl
  | cons c rest => exact combineAux_countSome_le c rest

lemma combineRow_countSome_lt (r : Row) (h : 0 < (combineRow r).2) :
    countSome (combineRow r).1 < countSome r := by
  cases r with
  | nil => simp [combineRow] at h
  | cons c rest => exact combineAux_countSome_lt c rest h

lemma moveRowLeft_fix (r : Row) (h : (moveRowLeft r).1 = r) :
    (moveRowLeft r).2 = 0 := by
  by_contra hne
  have hpos : 0 < (combineRow (stackRow r)).2 := by
    rw [moveRowLeft_def] at hne
    omega
  have hlt := combineRow_countSome_lt (stackRow r) hpos
  rw [stackRow_countSome] at hlt
  have hc : countSome (moveRowLeft r).1 = countSome r := by rw [h]
  rw [moveRowLeft_def] at hc
  rw [stackRow_countSome] at hc
  omega

lemma map_eq_self_mem {α : Type} (f : α → α) :
    ∀ (l : List α), l.map f = l → ∀ x ∈ l, f x = x := by
  intro l
  induction l with
  | nil => intro _ x hx; cases hx
  | cons a t ih =>
    intro h x hx
    rw [List.map_cons, List.cons_eq_cons] at h
    rcases List.mem_cons.mp hx with hx | hx
    · rw [hx]; exact h.1
    · exact ih h.2 x hx

lemma sum_zero_of_all_zero : ∀ (l : List Nat), (∀ x ∈ l, x = 0) → l.sum = 0 := by
  intro l
  induction l with
  | nil => intro _; rfl
  | cons a t ih =>
    intro h
    rw [List.sum_cons, h a (List.mem_cons_self a t), ih (fun x hx => h x (List.mem_cons_of_mem a hx))]

lemma moveLeftTiles_map (g : Grid) :
    moveLeftTiles g = g.map (fun r => (moveRowLeft r).1) := by
  simp [moveLeftTiles, stack_left, combine_left, List.map_map, Function.comp_def,
    moveRowLeft]

lemma deltaLeft_map (g : Grid) :
    deltaLeft g = (g.map (fun r => (moveRowLeft r).2)).sum := by
  simp [deltaLeft, stack_left, combine_left, List.map_map, Function.comp_def,
    moveRowLeft]

lemma gridFixLeft (g : Grid) (h : moveLeftTiles g = g) : deltaLeft g = 0 := by
  rw [moveLeftTiles_map] at h
  rw [deltaLeft_map]
  apply sum_zero_of_all_zero
  intro x hx
  rw [List.mem_map] at hx
  obtain ⟨r, hr, rfl⟩ := hx
  exact moveRowLeft_fix r (map_eq_self_mem _ g h r hr)

lemma reverse_reverse_grid (g : Grid) : reverse (reverse g) = g := by
  simp [reverse, List.map_map, Function.comp_def]

lemma gridFixRight (g : Grid) (h : moveRightTiles g = g) : deltaRight g = 0 := by
  unfold moveRightTiles at h
  have h2 : reverse (reverse (moveLeftTiles (reverse g))) = reverse g := by rw [h]
  rw [reverse_reverse_grid] at h2
  exact gridFixLeft _ h2

/-- A well-formed 4x4 grid. -/
def is4 (g : Grid) : Prop := g.length = 4 ∧ ∀ r ∈ g, r.length = 4

lemma length_four_destruct {α : Type} (l : List α) (h : l.length = 4) :
    ∃ a b c d, l = [a, b, c, d] := by
  match l, h with
  | [a, b, c, d], _ => exact ⟨a, b, c, d, rfl⟩

lemma transpose_is4 (g : Grid) : is4 (transpose g) := by
  constructor
  · simp [transpose, NUM_COLS]
  · intro r hr
    simp [transpose, NUM_ROWS, NUM_COLS] at hr
    obtain ⟨c, _, rfl⟩ := hr
    simp

lemma transpose_transpose (g : Grid) (h : is4 g) : transpose (transpose g) = g := by
  obtain ⟨hl, hr⟩ := h
  obtain ⟨r0, r1, r2, r3, rfl⟩ := length_four_destruct g hl
  obtain ⟨a0, a1, a2, a3, h0⟩ := length_four_destruct r0 (hr r0 (by simp))
  obtain ⟨b0, b1, b2, b3, h1⟩ := length_four_destruct r1 (hr r1 (by simp))
  obtain ⟨c0, c1, c2, c3, h2⟩ := length_four_destruct r2 (hr r2 (by simp))
  obtain ⟨d0, d1, d2, d3, h3⟩ := length_four_destruct r3 (hr r3 (by simp))
  subst h0 h1 h2 h3
  rfl

lemma moveRowLeft_length (r : Row) : (moveRowLeft r).1.length = r.length := by
  rw [moveRowLeft_def]
  simp [stackRow_length, combineRow_length]

lemma moveLeftTiles_is4 (g : Grid) (h : is4 g) : is4 (moveLeftTiles g) := by
  obtain ⟨hl, hr⟩ := h
  rw [moveLeftTiles_map]
  constructor
  · simpa using hl
  · intro r hrm
    rw [List.mem_map] at hrm
    obtain ⟨r0, hr0, rfl⟩ := hrm
    rw [moveRowLeft_length]
    exact hr r0 hr0

lemma reverse_is4 (g : Grid) (h : is4 g) : is4 (reverse g) := by
  obtain ⟨hl, hr⟩ := h
  constructor
  · simpa [reverse] using hl
  · intro r hrm
    simp only [reverse, List.mem_map] at hrm
    obtain ⟨r0, hr0, rfl⟩ := hrm
    simpa using hr r0 hr0

lemma moveRightTiles_is4 (g : Grid) (h : is4 g) : is4 (moveRightTiles g) :=
  reverse_is4 _ (moveLeftTiles_is4 _ (reverse_is4 _ h))

lemma gridFixUp (g : Grid) (h : moveUpTiles g = g) : deltaUp g = 0 := by
  unfold moveUpTiles at h
  have h4 : is4 (moveLeftTiles (transpose g)) :=
    moveLeftTiles_is4 _ (transpose_is4 g)
  have h2 : transpose (transpose (moveLeftTiles (transpose g))) = transpose g := by
    rw [h]
  rw [transpose_transpose _ h4] at h2
  exact gridFixLeft _ h2

lemma gridFixDown (g : Grid) (h : moveDownTiles g = g) : deltaDown g = 0 := by
  unfold moveDownTiles at h
  have h4 : is4 (moveRightTiles (transpose g)) :=
    moveRightTiles_is4 _ (transpose_is4 g)
  have h2 : transpose (transpose (moveRightTiles (transpose g))) = transpose g := by
    rw [h]
  rw [transpose_transpose _ h4] at h2
  exact gridFixRight _ h2

lemma gridFix (m : String) (g : Grid) (h : (moveG m g).1 = g) : (moveG m g).2 = 0 := by
  unfold moveG at h ⊢
  split_ifs at h ⊢ with h1 h2 h3 h4
  · exact gridFixUp g h
  · exact gridFixLeft g h
  · exact gridFixDown g h
  · exact gridFixRight g h
  · rfl

lemma move_left_eq (s : ModelState) :
    move_left s = { s with tiles := moveLeftTiles s.tiles,
                           score := s.score + deltaLeft s.tiles } := rfl

lemma move_right_eq (s : ModelState) :
    move_right s = { s with tiles := moveRightTiles s.tiles,
                            score := s.score + deltaRight s.tiles } := rfl

lemma move_up_eq (s : ModelState) :
    move_up s = { s with tiles := moveUpTiles s.tiles,
                         score := s.score + deltaUp s.tiles } := rfl

lemma move_down_eq (s : ModelState) :
    move_down s = { s with tiles := moveDownTiles s.tiles,
                           score := s.score + deltaDown s.tiles } := rfl

lemma move_detected_eq (m : String) (s : ModelState) :
    move_detected m s = { s with tiles := (moveG m s.tiles).1,
                                 score := s.score + (moveG m s.tiles).2 } := by
  unfold move_detected moveG
  split_ifs <;> rfl

lemma move_check_snd (m : String) (s : ModelState) : (move_check m s).2 = s := by
  unfold move_check
  split_ifs with hh
  · rw [move_detected_eq]
    by_cases hT : (moveG m s.tiles).1 = s.tiles
    · have hz := gridFix m s.tiles hT
      simp [hT, hz]
    · simp [hT]
  · rfl

lemma move_check_fst (m : String) (s : ModelState) :
    (move_check m s).1 =
      if 0 < s.history.length then
        (if (moveG m s.tiles).1 = s.tiles then some false else some true)
      else none := by
  unfold move_check
  rw [move_detected_eq]
  by_cases hh : 0 < s.history.length
  · simp only [hh, if_true]
    by_cases hT : (moveG m s.tiles).1 = s.tiles <;> simp [hT]
  · simp [hh]

lemma dropLast_append_single {α : Type} (l : List α) (x : α) :
    (l ++ [x]).dropLast = l := by
  simp

/-- The behaviour of `attempt_move` in one equation: a rejected move leaves
the state untouched; a committed move applies the moved grid, adds the
delta, and pushes the pre-move snapshot after trimming the front when the
history is longer than the undos remaining. -/
lemma attempt_move_eq (m : String) (s : ModelState) :
    attempt_move m s =
      if (moveG m s.tiles).1 = s.tiles then (false, s)
      else (true,
        { tiles := (moveG m s.tiles).1,
          score := s.score + (moveG m s.tiles).2,
          undos := s.undos,
          history := (if s.undos < s.history.length then s.history.tail
                      else s.history) ++ [(s.tiles, s.score)] }) := by
  simp only [attempt_move, move_check_snd, move_check_fst]
  by_cases hA : s.undos < s.history.length
  · cases hh : s.history with
    | nil => rw [hh] at hA; simp at hA
    | cons hd tl =>
      rw [hh] at hA
      have h0 : 0 < (tl ++ [(s.tiles, s.score)]).length := by simp
      have hdl : (hd :: (tl ++ [(s.tiles, s.score)])).dropLast = hd :: tl := by
        rw [show hd :: (tl ++ [(s.tiles, s.score)]) =
            (hd :: tl) ++ [(s.tiles, s.score)] from rfl, dropLast_append_single]
      by_cases hC : (moveG m s.tiles).1 = s.tiles
      · simp only [hA, if_true, List.head?_cons, List.tail_cons, h0, hC,
          reduceCtorEq, if_false, hdl]
        rw [← hh]
        simp
      · simp only [hA, if_true, List.head?_cons, List.tail_cons, h0, hC, if_false]
        rw [move_detected_eq]
  · have h0 : 0 < (s.history ++ [(s.tiles, s.score)]).length := by simp
    by_cases hC : (moveG m s.tiles).1 = s.tiles
    · simp only [hA, if_false, List.head?_cons, List.tail_cons, h0, if_true, hC,
        reduceCtorEq, dropLast_append_single]
      simp
    · simp only [hA, if_false, List.head?_cons, List.tail_cons, h0, if_true, hC]
      rw [move_detected_eq]

lemma probe_all_snd (s : ModelState) : (probe_all s).2 = s := by
  simp [probe_all, move_check_snd]

lemma has_lost_aux_snd (rows : List Row) : ∀ s : ModelState, (has_lost_aux rows s).2 = s := by
  induction rows with
  | nil => intro s; rfl
  | cons row rest ih =>
    intro s
    unfold has_lost_aux
    by_cases h1 : none ∈ row
    · simp [h1]
    · by_cases h2 : (probe_all s).1 = true
      · simp [h1, h2, probe_all_snd]
      · simp [h1, h2, ih, probe_all_snd]

lemma add_tile_score (s : ModelState) (i v : Nat) : (add_tile s i v).score = s.score := by
  unfold add_tile
  split <;> rfl

lemma add_tile_undos (s : ModelState) (i v : Nat) : (add_tile s i v).undos = s.undos := by
  unfold add_tile
  split <;> rfl

lemma add_tile_history (s : ModelState) (i v : Nat) :
    (add_tile s i v).history = s.history := by
  unfold add_tile
  split <;> rfl

lemma new_game_score (s : ModelState) (i1 v1 i2 v2 : Nat) :
    (new_game s i1 v1 i2 v2).score = s.score := by
  unfold new_game
  rw [add_tile_score, add_tile_score]

lemma new_game_undos (s : ModelState) (i1 v1 i2 v2 : Nat) :
    (new_game s i1 v1 i2 v2).undos = s.undos := by
  unfold new_game
  rw [add_tile_undos, add_tile_undos]

lemma new_game_history (s : ModelState) (i1 v1 i2 v2 : Nat) :
    (new_game s i1 v1 i2 v2).history = s.history := by
  unfold new_game
  rw [add_tile_history, add_tile_history]

/-- The bounded-history invariant: the undo history holds at most one more
snapshot than there are undos remaining. -/
def Inv (s : ModelState) : Prop := s.history.length ≤ s.undos + 1

lemma inv_attempt_move (m : String) (s : ModelState) (h : Inv s) :
    Inv (attempt_move m s).2 := by
  rw [attempt_move_eq]
  by_cases hC : (moveG m s.tiles).1 = s.tiles
  · simpa [hC] using h
  · simp only [hC, if_false]
    unfold Inv at h ⊢
    by_cases hA : s.undos < s.history.length
    · simp only [hA, if_true]
      simp only [List.length_append, List.length_cons, List.length_nil]
      cases hh : s.history with
      | nil => rw [hh] at hA; simp at hA
      | cons hd tl => rw [hh] at h; simp at h ⊢; omega
    · simp only [hA, if_false]
      simp only [List.length_append, List.length_cons, List.length_nil]
      omega

lemma inv_use_undo (s : ModelState) (h : Inv s) : Inv (use_undo s) := by
  unfold use_undo
  split_ifs with hc
  · cases hl : s.history.getLast? with
    | none => exact h
    | some a =>
      unfold Inv at h ⊢
      simp only [List.length_dropLast]
      omega
  · exact h

lemma inv_add_tile (s : ModelState) (i v : Nat) (h : Inv s) : Inv (add_tile s i v) := by
  unfold Inv
  rw [add_tile_history, add_tile_undos]
  exact h

lemma inv_new_game (s : ModelState) (i1 v1 i2 v2 : Nat) (h : Inv s) :
    Inv (new_game s i1 v1 i2 v2) := by
  unfold Inv
  rw [new_game_history, new_game_undos]
  exact h

/-! Concrete example states used by witnesses and counterexamples. -/

/-- A full grid with an adjacent equal pair (the 2, 2 at the start of the
first row), so a leftward move changes it. -/
def fullPairG : Grid :=
  [[some 2, some 2, some 4, some 8],
   [some 16, some 32, some 64, some 128],
   [some 256, some 512, some 1024, some 4],
   [some 2, some 8, some 32, some 128]]

/-- A full grid with no two adjacent equal values in any row or column: no
move changes it. -/
def stuckG : Grid :=
  [[some 2, some 4, some 8, some 16],
   [some 32, some 64, some 128, some 256],
   [some 512, some 1024, some 2, some 4],
   [some 8, some 16, some 32, some 64]]

def stuckState : ModelState :=
  { tiles := stuckG, score := 5, undos := 2, history := [(emptyGrid, 0)] }

def lostBugState : ModelState :=
  { tiles := fullPairG, score := 0, undos := 3, history := [] }

def row2222 : Row := [some 2, some 2, some 2, some 2]

def emptyRow : Row := [none, none, none, none]

def g2222 : Grid := [row2222, emptyRow, emptyRow, emptyRow]

def preFullHistState : ModelState :=
  { tiles := fullPairG, score := 0, undos := 3,
    history := [(emptyGrid, 0), (emptyGrid, 0), (emptyGrid, 0)] }

def undoState : ModelState :=
  { tiles := emptyGrid, score := 9, undos := 2, history := [(fullPairG, 4)] }

def scoreCarryState : ModelState :=
  { tiles := emptyGrid, score := 7, undos := 3, history := [] }

/-! The claims. -/

/-- Claim C1: for every game state and every direction in {Up, Left, Down,
Right}, if `attempt_move` returns False then the grid, the score, the undo
history and the undos remaining are all exactly as they were before the
call: the rejected move has no side effect. -/
theorem claim1_rejected_move_no_side_effect (s : ModelState) (m : String)
    (_hm : m = UP ∨ m = LEFT ∨ m = DOWN ∨ m = RIGHT)
    (hf : (attempt_move m s).1 = false) :
    (attempt_move m s).2 = s := by
  rw [attempt_move_eq] at hf ⊢
  by_cases hC : (moveG m s.tiles).1 = s.tiles
  · simp [hC]
  · simp [hC] at hf

/-- Witness for C1: on a stuck full grid a leftward `attempt_move` returns
False and the state is unchanged. -/
theorem claim1_witness :
    (attempt_move LEFT stuckState).1 = false ∧
    (attempt_move LEFT stuckState).2 = stuckState :=
  ⟨by decide,
   claim1_rejected_move_no_side_effect stuckState LEFT (Or.inr (Or.inl rfl))
     (by decide)⟩

/-- Claim C2 (code bug): `has_lost` is claimed to be true iff the grid is
full and no move changes it; but on a full grid containing an adjacent equal
pair, with an empty undo history, the code returns True although a leftward
move would change the grid (every probe `move_check` returns Python `None`,
which is falsy, whenever `_previous_info` is empty). -/
theorem claim2_has_lost_empty_history_bug :
    (has_lost lostBugState).1 = true ∧
    moveLeftTiles lostBugState.tiles ≠ lostBugState.tiles ∧
    (∀ r ∈ lostBugState.tiles, ¬ none ∈ r) := by
  refine ⟨by decide, by decide, by decide⟩

/-- Claim C3: merging is single-pass and non-cascading: the row
[2, 2, 2, 2] moved leftward becomes [4, 4, empty, empty] (not
[8, empty, empty, empty]) and adds exactly 8 to the score. -/
theorem claim3_single_pass_merge (s : ModelState) (hrow : s.tiles = g2222) :
    moveRowLeft row2222 = ([some 4, some 4, none, none], 8) ∧
    move_left s = { s with
      tiles := [[some 4, some 4, none, none], emptyRow, emptyRow, emptyRow],
      score := s.score + 8 } := by
  constructor
  · decide
  · have h1 : moveLeftTiles g2222 =
        [[some 4, some 4, none, none], emptyRow, emptyRow, emptyRow] := by decide
    have h2 : deltaLeft g2222 = 8 := by decide
    rw [move_left_eq, hrow, h1, h2]

/-- Witness for C3: the merge on a concrete state holding the row
[2, 2, 2, 2]. -/
theorem claim3_witness :
    moveRowLeft row2222 = ([some 4, some 4, none, none], 8) ∧
    move_left { tiles := g2222, score := 5, undos := 3, history := [] } =
      { tiles := [[some 4, some 4, none, none], emptyRow, emptyRow, emptyRow],
        score := 5 + 8, undos := 3, history := [] } :=
  claim3_single_pass_merge
    { tiles := g2222, score := 5, undos := 3, history := [] } rfl

/-- Claim C4: directional symmetry: `move_right` produces
reverseRows (moveLeft (reverseRows G)), `move_up` produces
transpose (moveLeft (transpose G)), `move_down` produces
transpose (moveRight (transpose G)), each adding the score delta of the
conjugated move. -/
theorem claim4_directional_symmetry (s : ModelState) :
    ((move_right s).tiles = reverse (moveLeftTiles (reverse s.tiles)) ∧
      (move_right s).score = s.score + deltaLeft (reverse s.tiles)) ∧
    ((move_up s).tiles = transpose (moveLeftTiles (transpose s.tiles)) ∧
      (move_up s).score = s.score + deltaLeft (transpose s.tiles)) ∧
    ((move_down s).tiles = transpose (moveRightTiles (transpose s.tiles)) ∧
      (move_down s).score = s.score + deltaRight (transpose s.tiles)) :=
  ⟨⟨rfl, rfl⟩, ⟨rfl, rfl⟩, ⟨rfl, rfl⟩⟩

/-- Claim C5 (amended): in every state reachable through the engine's own
operations — a fresh instance, attempted moves, undos, added tiles and new
games, but not `loading` — the history length is at most the undos
remaining plus one. -/
theorem claim5_history_bound_reachable (s : ModelState) (h : Reachable s) :
    s.history.length ≤ s.undos + 1 := by
  induction h with
  | init i1 v1 i2 v2 => simp [initState]
  | step_move m hs ih => exact inv_attempt_move _ _ ih
  | step_undo hs ih => exact inv_use_undo _ ih
  | step_tile i v hs ih => exact inv_add_tile _ i v ih
  | step_new i1 v1 i2 v2 hs ih => exact inv_new_game _ i1 v1 i2 v2 ih

/-- Witness for C5: the bound holds on a freshly constructed model. -/
theorem claim5_witness :
    (initState 0 2 1 2).history.length ≤ (initState 0 2 1 2).undos + 1 :=
  claim5_history_bound_reachable _ (Reachable.init 0 2 1 2)

/-- Counterexample for C5 as stated: importing a snapshot (`loading`)
installs history and undos verbatim with no validation, so the bound can be
violated right after an import. -/
theorem claim5_counterexample :
    ¬ ((loading { tiles := emptyGrid, score := 0, undos := 3, history := [] }
          emptyGrid 0 0 [(emptyGrid, 0), (emptyGrid, 0)]).history.length ≤
        (loading { tiles := emptyGrid, score := 0, undos := 3, history := [] }
          emptyGrid 0 0 [(emptyGrid, 0), (emptyGrid, 0)]).undos + 1) := by
  decide

/-- Claim C6 (amended): when `attempt_move` commits a move it pushes the
pre-move (grid, score) snapshot onto the history — trimming the oldest
snapshot first exactly when the history is already longer than the undos
remaining, so that the history never exceeds undosRemaining + 1 entries
after the push (given it did not before) — applies the new grid and adds the
move's score delta. -/
theorem claim6_commit_effect (s : ModelState) (m : String)
    (ht : (attempt_move m s).1 = true) :
    (attempt_move m s).2 =
      { tiles := (moveG m s.tiles).1,
        score := s.score + (moveG m s.tiles).2,
        undos := s.undos,
        history := (if s.undos < s.history.length then s.history.tail
                    else s.history) ++ [(s.tiles, s.score)] } ∧
    (s.history.length ≤ s.undos + 1 →
      ((attempt_move m s).2).history.length ≤ s.undos + 1) := by
  have hC : ¬(moveG m s.tiles).1 = s.tiles := by
    intro hc
    rw [attempt_move_eq] at ht
    simp [hc] at ht
  have h1 : (attempt_move m s).2 =
      { tiles := (moveG m s.tiles).1,
        score := s.score + (moveG m s.tiles).2,
        undos := s.undos,
        history := (if s.undos < s.history.length then s.history.tail
                    else s.history) ++ [(s.tiles, s.score)] } := by
    rw [attempt_move_eq]
    simp [hC]
  refine ⟨h1, fun hb => ?_⟩
  have h2 := inv_attempt_move m s hb
  unfold Inv at h2
  rw [h1] at h2 ⊢
  simpa using h2

/-- Witness for C6: a committed leftward move from a state with three
snapshots and three undos. -/
theorem claim6_witness :
    (attempt_move LEFT preFullHistState).1 = true ∧
    ((attempt_move LEFT preFullHistState).2 =
      { tiles := (moveG LEFT preFullHistState.tiles).1,
        score := preFullHistState.score + (moveG LEFT preFullHistState.tiles).2,
        undos := preFullHistState.undos,
        history := (if preFullHistState.undos < preFullHistState.history.length
                    then preFullHistState.history.tail
                    else preFullHistState.history) ++
          [(preFullHistState.tiles, preFullHistState.score)] } ∧
      (preFullHistState.history.length ≤ preFullHistState.undos + 1 →
        ((attempt_move LEFT preFullHistState).2).history.length ≤
          preFullHistState.undos + 1)) :=
  ⟨by decide, claim6_commit_effect preFullHistState LEFT (by decide)⟩

/-- Counterexample for C6 as stated: with three undos remaining and three
stored snapshots a committed move leaves four snapshots, exceeding the
claimed bound of undosRemaining entries after the push. -/
theorem claim6_counterexample :
    (attempt_move LEFT preFullHistState).1 = true ∧
    preFullHistState.undos < (attempt_move LEFT preFullHistState).2.history.length := by
  refine ⟨by decide, by decide⟩

/-- Claim C7: if there are undos remaining and the history is non-empty,
`use_undo` consumes one undo, pops the most recent snapshot and restores
grid and score from it; in every other case it leaves the state unchanged. -/
theorem claim7_use_undo_spec (s : ModelState) :
    (∀ a, 0 < s.undos → s.history.getLast? = some a →
      use_undo s = { tiles := a.1, score := a.2, undos := s.undos - 1,
                     history := s.history.dropLast }) ∧
    ((s.undos = 0 ∨ s.history = []) → use_undo s = s) := by
  constructor
  · intro a hu hl
    unfold use_undo
    have hh : 0 < s.history.length := by
      cases hhist : s.history with
      | nil => rw [hhist] at hl; simp at hl
      | cons x t => simp [hhist]
    rw [if_pos ⟨hu, hh⟩, hl]
  · intro h
    unfold use_undo
    rcases h with h | h
    · simp [h]
    · simp [h]

/-- Witness for C7: an undo restores the snapshot, and with zero undos
remaining the same state is left unchanged. -/
theorem claim7_witness :
    use_undo undoState =
      { tiles := fullPairG, score := 4, undos := 1, history := [] } ∧
    use_undo { undoState with undos := 0 } = { undoState with undos := 0 } :=
  ⟨(claim7_use_undo_spec undoState).1 (fullPairG, 4) (by decide) rfl,
   (claim7_use_undo_spec { undoState with undos := 0 }).2 (Or.inl rfl)⟩

/-- Claim C8 (code bug): `new_game` rebuilds the grid with exactly two
non-empty cells, each 2 or 4, but — contrary to the claim and to the
method's own docstring — it never touches `_score`, so the score keeps its
prior value instead of being reset to 0 (the score only resets because the
controller replaces the whole `Model` instance). -/
theorem claim8_new_game_keeps_score :
    (∀ (s : ModelState) (i1 v1 i2 v2 : Nat),
      (new_game s i1 v1 i2 v2).score = s.score) ∧
    (new_game scoreCarryState 0 2 1 4).score = 7 ∧
    countGrid (new_game scoreCarryState 0 2 1 4).tiles = 2 ∧
    (∀ r ∈ (new_game scoreCarryState 0 2 1 4).tiles, ∀ c ∈ r,
      c = none ∨ c = some 2 ∨ c = some 4) := by
  refine ⟨fun s i1 v1 i2 v2 => new_game_score s i1 v1 i2 v2, by decide, by decide, by decide⟩

/-- Claim C9: `has_lost` leaves the observable state unchanged — the grid,
score, undos remaining and history after the call are value-equal to what
they were before (each internal probe mutates and then restores). -/
theorem claim9_has_lost_preserves_state (s : ModelState) : (has_lost s).2 = s :=
  has_lost_aux_snd s.tiles s

/-- Claim C10: for every move string that is not one of the four direction
keys w, a, s, d, `attempt_move` returns False and leaves the whole state
unchanged. -/
theorem claim10_invalid_key_rejected (s : ModelState) (m : String)
    (hm : ¬(m = UP ∨ m = LEFT ∨ m = DOWN ∨ m = RIGHT)) :
    attempt_move m s = (false, s) := by
  push_neg at hm
  obtain ⟨h1, h2, h3, h4⟩ := hm
  have hG : moveG m s.tiles = (s.tiles, 0) := by
    unfold moveG
    simp [h1, h2, h3, h4]
  rw [attempt_move_eq, hG]
  simp

/-- Witness for C10: the key "x" is rejected without side effects. -/
theorem claim10_witness :
    ¬("x" = UP ∨ "x" = LEFT ∨ "x" = DOWN ∨ "x" = RIGHT) ∧
    attempt_move "x" undoState = (false, undoState) :=
  ⟨by decide, claim10_invalid_key_rejected undoState "x" (by decide)⟩

end A3
